import Mathlib

/-!
Verification of the django-agent-runtime scheduling core against its
natural-language specification.

The Python source is shallowly embedded: pure functions become Lean
functions, database tables become explicit lists threaded through the
operations, machine integers become `Int`/`Nat`, and fallible calls
return `Option`/`Except`.  UUIDs are modelled as natural numbers and
timestamps as integers (e.g. microseconds since the epoch); both appear
only as opaque identifiers/values in the code under study.

Source files embedded here: `runtime/runner.py`, `runtime/events/base.py`,
`models/base.py`, `api/views.py`, `api/serializers.py`, `conf.py`.
The queue backends (`runtime/queue/postgres.py`, `runtime/queue/base.py`),
the DB event bus (`runtime/events/db.py`) and the `EventType` enum
(`runtime/interfaces.py`) are not part of the sources available here;
where an operation of those files is needed it is modelled from the
specification and marked `Modelled from the spec:` in its doc comment.
-/

namespace AgentRuntime

/-! ### Python values

Event payloads are Python dicts with scalar values; one explicit level of
nesting (`DictVal`) is added for the serialized form of an `Event`. -/

/-- Scalar Python values occurring in the payload dicts built by the
runner (`None`, booleans, ints, strings). -/
inductive PyVal where
  | pyNone
  | pyBool (b : Bool)
  | pyInt (n : ℤ)
  | pyStr (s : String)
deriving DecidableEq, Repr

/-- A Python dict with string keys and scalar values, as used for event
payloads throughout `runtime/runner.py`. -/
abbrev PyDict := List (String × PyVal)

/-! ### Run status and the Run row (`models/base.py`) -/

/-- `RunStatus` choices from `models/base.py`. -/
inductive RunStatus where
  | queued
  | running
  | succeeded
  | failed
  | cancelled
  | timedOut
deriving DecidableEq, Repr

/-- `AbstractAgentRun.is_terminal` (`models/base.py`): membership of the
status in the set SUCCEEDED, FAILED, CANCELLED, TIMED_OUT. -/
def RunStatus.isTerminalStatus : RunStatus → Bool
  | .succeeded => true
  | .failed => true
  | .cancelled => true
  | .timedOut => true
  | _ => false

/-- The structured error object stored on a run and passed to the queue
(`runtime/runner.py` builds dict literals with exactly these keys; absent
keys are `none`). -/
structure ErrorDict where
  type : String
  message : String
  stack : Option String
  retriable : Bool
  details : Option PyDict
deriving DecidableEq, Repr

/-- One row of the `AgentRun` table (`models/base.py`, concrete FK in
`models/concrete.py`).  The JSON `input` field, documented as a dict with
keys `messages` and `params`, is modelled by its two components; the
empty JSON error object is modelled as `none`. -/
structure Run where
  id : ℕ
  conversation_id : Option ℕ
  agent_key : String
  status : RunStatus
  input_messages : List PyDict
  input_params : PyDict
  output : PyDict
  error : Option ErrorDict
  attempt : ℕ
  max_attempts : ℕ
  lease_owner : String
  lease_expires_at : Option ℤ
  idempotency_key : Option String
  cancel_requested_at : Option ℤ
  created_at : ℤ
  started_at : Option ℤ
  finished_at : Option ℤ
  metadata : PyDict
deriving DecidableEq, Repr

/-- `AbstractAgentRun.is_terminal` lifted to a row. -/
def Run.is_terminal (r : Run) : Bool :=
  r.status.isTerminalStatus

/-! ### Events (`runtime/events/base.py`) -/

/-- The `Event` dataclass of `runtime/events/base.py`: `run_id` (UUID,
modelled as `ℕ`), `seq : int`, `event_type : str`, `payload : dict`,
`timestamp : datetime` (modelled as `ℤ`). -/
structure Event where
  run_id : ℕ
  seq : ℤ
  event_type : String
  payload : PyDict
  timestamp : ℤ
deriving DecidableEq, Repr

/-! ### Configuration (`conf.py`)

`RETRY_BACKOFF_BASE` is a Python float (default `2.0`); it is modelled as
a rational number, which is exact for the default value and the small
exponents the code computes with. -/

/-- The fields of `AgentRuntimeSettings` (`conf.py`) that the embedded
code reads, with genuine widths (seconds as integers, the backoff base as
a rational). -/
structure RuntimeSettings where
  LEASE_TTL_SECONDS : ℤ
  RUN_TIMEOUT_SECONDS : ℤ
  HEARTBEAT_INTERVAL_SECONDS : ℤ
  DEFAULT_MAX_ATTEMPTS : ℕ
  RETRY_BACKOFF_BASE : ℚ
  RETRY_BACKOFF_MAX : ℤ
  SSE_KEEPALIVE_SECONDS : ℤ
deriving DecidableEq, Repr

/-- The default values of `AgentRuntimeSettings` (`conf.py`). -/
def defaultSettings : RuntimeSettings :=
  { LEASE_TTL_SECONDS := 30
    RUN_TIMEOUT_SECONDS := 900
    HEARTBEAT_INTERVAL_SECONDS := 10
    DEFAULT_MAX_ATTEMPTS := 3
    RETRY_BACKOFF_BASE := 2
    RETRY_BACKOFF_MAX := 300
    SSE_KEEPALIVE_SECONDS := 15 }

/-- Python `int(x)` on a rational: truncation toward zero. -/
def int_trunc (q : ℚ) : ℤ :=
  if 0 ≤ q then ⌊q⌋ else ⌈q⌉

/-- `AgentRunner._calculate_backoff` (`runtime/runner.py`): the local
variable `attempt` is hardcoded to `1` ("Default") and the context
argument is never consulted, so the function depends only on the
settings. -/
def calculate_backoff (s : RuntimeSettings) : ℤ :=
  let attempt : ℕ := 1
  let base := s.RETRY_BACKOFF_BASE
  let max_backoff := s.RETRY_BACKOFF_MAX
  int_trunc (min (base ^ attempt) (max_backoff : ℚ))

/-- The backoff the specification prescribes for a run whose current
attempt number is `attempt`: `min(RETRY_BACKOFF_BASE ^ attempt,
RETRY_BACKOFF_MAX)` seconds.  Stated from the spec's words for comparison
with `calculate_backoff`. -/
def specBackoff (s : RuntimeSettings) (attempt : ℕ) : ℚ :=
  min (s.RETRY_BACKOFF_BASE ^ attempt) ((s.RETRY_BACKOFF_MAX : ℚ))

/-! ### Event bus (`runtime/events/base.py`, implementation spec-modelled)

The event store is the list of `Event` rows, in insertion order; `publish`
appends.  The concrete DB bus (`runtime/events/db.py`) is not among the
available sources. -/

/-- The sequence numbers of a run's events in the store, in insertion
order. -/
def runSeqs (store : List Event) (run_id : ℕ) : List ℤ :=
  (store.filter (fun e => e.run_id = run_id)).map (fun e => e.seq)

/-- Modelled from the spec: `EventBus.get_next_seq` (the DB implementation
file `runtime/events/db.py` is not under src/; the abstract interface in
`runtime/events/base.py` documents "Next sequence number (0 if no
events)", and the spec says "returns one more than the maximum existing
seq, or 0").  Only events of the given run are considered. -/
def get_next_seq (store : List Event) (run_id : ℕ) : ℤ :=
  match (runSeqs store run_id).max? with
  | some m => m + 1
  | none => 0

/-! ### Run context (`runtime/runner.py`, class `RunContextImpl`) -/

/-- The mutable part of `RunContextImpl` together with its identity
fields.  The `_event_bus`, `_queue` and `_worker_id` handles are passed
explicitly to the operations; the opaque `tool_registry` is omitted.
`seq`, `state`, `is_cancelled` model `_seq`, `_state`, `_is_cancelled`. -/
structure RunContextImpl where
  run_id : ℕ
  conversation_id : Option ℕ
  input_messages : List PyDict
  params : PyDict
  seq : ℤ
  state : Option PyDict
  is_cancelled : Bool
deriving DecidableEq, Repr

/-- `RunContextImpl.emit` (`runtime/runner.py`): build an `Event` at the
current `_seq`, `await bus.publish(event)`, then `_seq += 1`.  The bus
call is modelled by `publishOk`: when `true` the publish succeeds and the
event is appended to the store; when `false` `publish` raised, the
exception propagates out of `emit` (the `Except.error` result) and
neither the counter nor the store changes. -/
def emit (ctx : RunContextImpl) (store : List Event) (event_type : String)
    (payload : PyDict) (now : ℤ) (publishOk : Bool) :
    Except String (Unit) × RunContextImpl × List Event :=
  let event : Event :=
    { run_id := ctx.run_id
      seq := ctx.seq
      event_type := event_type
      payload := payload
      timestamp := now }
  if publishOk then
    (Except.ok (), { ctx with seq := ctx.seq + 1 }, store ++ [event])
  else
    (Except.error "EventBus.publish raised", ctx, store)

/-- A claimed run handed to the runner.  The `QueuedRun` dataclass lives
in `runtime/queue/base.py`, which is not among the available sources; its
fields are modelled from its uses in `runtime/runner.py` and
`tests/test_runner.py` (`run_id`, `agent_key`, `attempt`, `input` with
keys `messages`/`params`, `metadata` with key `conversation_id`). -/
structure QueuedRun where
  run_id : ℕ
  agent_key : String
  attempt : ℕ
  input_messages : List PyDict
  input_params : PyDict
  conversation_id : Option ℕ
deriving DecidableEq, Repr

/-- `AgentRunner._build_context` (`runtime/runner.py`): the context starts
with `_seq = await event_bus.get_next_seq(run_id)`, no cached state and
the cancellation flag down. -/
def build_context (store : List Event) (queued : QueuedRun) : RunContextImpl :=
  { run_id := queued.run_id
    conversation_id := queued.conversation_id
    input_messages := queued.input_messages
    params := queued.input_params
    seq := get_next_seq store queued.run_id
    state := none
    is_cancelled := false }

/-- The list `0, 1, ..., n-1` as integers: the contiguous-prefix shape
the spec requires of a run's event sequence numbers. -/
def natRange (n : ℕ) : List ℤ :=
  (List.range n).map (fun i => (i : ℤ))

/-- A sequence of `emit` calls that all publish successfully, as issued
by the runner and the agent callback during one attempt. -/
def emitAll (ctx : RunContextImpl) (store : List Event)
    (reqs : List (String × PyDict)) (now : ℤ) : RunContextImpl × List Event :=
  match reqs with
  | [] => (ctx, store)
  | (ty, p) :: rest =>
    let r := emit ctx store ty p now true
    emitAll r.2.1 r.2.2 rest now

/-! ### Checkpoints (`models/base.py`, `runtime/runner.py`) -/

/-- One row of the `AgentCheckpoint` table (`models/base.py`). -/
structure Checkpoint where
  run_id : ℕ
  seq : ℕ
  state : PyDict
deriving DecidableEq, Repr

/-- The Django query `AgentCheckpoint.objects.filter(run_id=...).order_by("-seq").first()`:
the row of the run with the highest `seq` (rows are unique on
`(run, seq)` by the `unique_together` constraint in `models/concrete.py`,
so ties cannot occur; the fold keeps the earlier row on a tie). -/
def latest_checkpoint (cps : List Checkpoint) (run_id : ℕ) : Option Checkpoint :=
  (cps.filter (fun c => c.run_id = run_id)).foldl
    (fun acc c =>
      match acc with
      | none => some c
      | some b => if b.seq < c.seq then some c else some b)
    none

/-- The next checkpoint sequence as computed inside
`RunContextImpl.checkpoint`: `(last.seq + 1) if last else 0`. -/
def next_checkpoint_seq (cps : List Checkpoint) (run_id : ℕ) : ℕ :=
  match latest_checkpoint cps run_id with
  | some last => last.seq + 1
  | none => 0

/-- `RunContextImpl.checkpoint` (`runtime/runner.py`): cache the state on
the context, append a checkpoint row at the next checkpoint seq, then
emit a `state.checkpoint` event (event type string from the spec's
canonical table, section 6; the `EventType` enum of
`runtime/interfaces.py` is not among the available sources).  The payload
value `_seq - 1` is the Python expression evaluated before `emit` runs. -/
def checkpoint (ctx : RunContextImpl) (cps : List Checkpoint)
    (store : List Event) (state : PyDict) (now : ℤ) :
    RunContextImpl × List Checkpoint × List Event :=
  let ctx1 := { ctx with state := some state }
  let next_seq := next_checkpoint_seq cps ctx.run_id
  let cps1 := cps ++ [{ run_id := ctx.run_id, seq := next_seq, state := state }]
  let r := emit ctx1 store "state.checkpoint"
    [("seq", PyVal.pyInt (ctx1.seq - 1))] now true
  (r.2.1, cps1, r.2.2)

/-- `RunContextImpl.get_state` (`runtime/runner.py`): return the cached
`_state` when present, otherwise the state of the highest-seq checkpoint
row of the run, or `none` when the run has none.  (The Python method also
caches the loaded value; the cache only affects later calls, which this
read-only model re-computes identically.) -/
def get_state (ctx : RunContextImpl) (cps : List Checkpoint) : Option PyDict :=
  match ctx.state with
  | some s => some s
  | none =>
    match latest_checkpoint cps ctx.run_id with
    | some c => some c.state
    | none => none

/-! ### Queue operations used by the runner (spec-modelled)

`runtime/queue/postgres.py` and `runtime/queue/base.py` are not among the
available sources; the operations below are modelled from the spec,
section 4.1. -/

/-- Modelled from the spec: `RunQueue.release` (`runtime/queue/postgres.py`
is not under src/).  Spec 4.1: "terminal transition.  If `lease_owner ==
worker_id`, set status to the supplied terminal, stamp `finished_at`,
clear lease, persist `output` or `error`.  No-op if lease no longer
held."  The runner calls it with a success flag and an error dict; per
spec 4.5 step 6 and scenario 4 the terminal for the timeout release
(error type `TimeoutError`, non-retriable) is TIMED_OUT, a successful
release is SUCCEEDED, and any other failure release is FAILED. -/
def release (run : Run) (worker_id : String) (success : Bool)
    (output : PyDict) (error : Option ErrorDict) (now : ℤ) : Run :=
  if run.lease_owner = worker_id then
    { run with
      status :=
        if success then RunStatus.succeeded
        else
          match error with
          | some e => if e.type = "TimeoutError" then RunStatus.timedOut else RunStatus.failed
          | none => RunStatus.failed
      output := output
      error := error
      finished_at := some now
      lease_owner := ""
      lease_expires_at := none }
  else run

/-- Modelled from the spec: `RunQueue.requeue_for_retry`
(`runtime/queue/postgres.py` is not under src/).  Spec 4.1: "if `attempt <
max_attempts` and lease held, increment `attempt`, set status = QUEUED,
clear lease, and defer claimability until `now + delay`.  Returns true on
success; false if retries exhausted."  The deferral timestamp is not a
`Run` column and is dropped here; the boolean result and the row update
are what the runner consumes. -/
def requeue_for_retry (run : Run) (worker_id : String) (error : ErrorDict)
    (_delay_seconds : ℤ) : Bool × Run :=
  if run.lease_owner = worker_id ∧ run.attempt < run.max_attempts then
    (true,
      { run with
        status := RunStatus.queued
        attempt := run.attempt + 1
        error := some error
        lease_owner := ""
        lease_expires_at := none })
  else (false, run)

/-! ### Runner outcome handlers (`runtime/runner.py`) -/

/-- `ErrorInfo` (declared in `runtime/interfaces.py`, constructed in
`AgentRunner._handle_error`): the classification of a callback
exception. -/
structure ErrorInfo where
  type : String
  message : String
  stack : Option String
  retriable : Bool
  details : Option PyDict
deriving DecidableEq, Repr

/-- The combined effect of one runner outcome handler on the context, the
event store and the run row, plus the delay that was passed to
`queue.requeue_for_retry` when that call was made (`none` when the
handler never called it). -/
structure HandlerResult where
  ctx : RunContextImpl
  store : List Event
  run : Run
  requeue_delay : Option ℤ
deriving Repr

/-- `AgentRunner._handle_timeout` (`runtime/runner.py`): emit
`run.timed_out` with payload `timeout_seconds = RUN_TIMEOUT_SECONDS`,
then release with `success=False` and the non-retriable `TimeoutError`
error dict.  No requeue call occurs on this path. -/
def handle_timeout (s : RuntimeSettings) (worker_id : String)
    (ctx : RunContextImpl) (store : List Event) (run : Run) (now : ℤ) :
    HandlerResult :=
  let r := emit ctx store "run.timed_out"
    [("timeout_seconds", PyVal.pyInt s.RUN_TIMEOUT_SECONDS)] now true
  let err : ErrorDict :=
    { type := "TimeoutError"
      message := "Run exceeded " ++ toString s.RUN_TIMEOUT_SECONDS ++ "s timeout"
      stack := none
      retriable := false
      details := none }
  { ctx := r.2.1
    store := r.2.2
    run := release run worker_id false run.output (some err) now
    requeue_delay := none }

/-- `AgentRunner._handle_error` (`runtime/runner.py`): `error_info` is the
classification returned by `runtime.on_error` (or the default retriable
classification when that returned `None`); its fields become the error
dict.  When retriable, the runner calls `queue.requeue_for_retry` with
`delay_seconds = self._calculate_backoff(ctx)` and stops if the requeue
succeeded; otherwise it emits `run.failed` and releases.  The Python
payload of `run.failed` is the dict with the single key `error` holding
the nested error dict; `PyVal` is flat, so that payload is represented by
the error's type string while the full error dict is persisted on the
released run row (no claim depends on this payload). -/
def handle_error (s : RuntimeSettings) (worker_id : String)
    (ctx : RunContextImpl) (store : List Event) (run : Run)
    (error_info : ErrorInfo) (now : ℤ) : HandlerResult :=
  let error_dict : ErrorDict :=
    { type := error_info.type
      message := error_info.message
      stack := error_info.stack
      retriable := error_info.retriable
      details := error_info.details }
  if error_info.retriable then
    let rq := requeue_for_retry run worker_id error_dict (calculate_backoff s)
    if rq.1 then
      { ctx := ctx, store := store, run := rq.2
        requeue_delay := some (calculate_backoff s) }
    else
      let r := emit ctx store "run.failed"
        [("error", PyVal.pyStr error_dict.type)] now true
      { ctx := r.2.1, store := r.2.2
        run := release rq.2 worker_id false run.output (some error_dict) now
        requeue_delay := some (calculate_backoff s) }
  else
    let r := emit ctx store "run.failed"
      [("error", PyVal.pyStr error_dict.type)] now true
    { ctx := r.2.1, store := r.2.2
      run := release run worker_id false run.output (some error_dict) now
      requeue_delay := none }

/-! ### Heartbeat loop and the shape of `run_once` (`runtime/runner.py`)

The heartbeat task runs concurrently with the agent callback; the model
below records event types only and fixes the schedule in which every
modelled heartbeat tick completes while the callback is still running. -/

/-- `AgentRunner._heartbeat_loop` (`runtime/runner.py`), driven by the
list of `extend_lease` results observed at successive ticks (the list
ends when the runner cancels the task).  Per tick: if the lease extension
failed, log "Lost lease" and `break` - nothing else happens on that path;
otherwise emit `run.heartbeat` and poll cancellation.  Returns the event
types the loop emitted and whether it observed a lost lease. -/
def heartbeat_loop : List Bool → List String × Bool
  | [] => ([], false)
  | extended :: rest =>
    if extended then
      let r := heartbeat_loop rest
      ("run.heartbeat" :: r.1, r.2)
    else ([], true)

/-- The event-type trace of `AgentRunner.run_once` (`runtime/runner.py`)
for a callback that returns normally: `run.started`, the heartbeat loop's
events for the given `extend_lease` results, the callback's own events,
then the completion handler's event - `run.cancelled` when
`ctx.cancelled()` is set, else `run.succeeded`.  Nothing in `run_once`
consults the heartbeat task's lease-lost outcome: the tail of the trace
is the same whether or not the lease was lost. -/
def run_once_trace (ticks : List Bool) (callback_events : List String)
    (cancelled : Bool) : List String :=
  "run.started" ::
    ((heartbeat_loop ticks).1 ++ callback_events ++
      (if cancelled then ["run.cancelled"] else ["run.succeeded"]))

/-! ### API views (`api/views.py`, `api/serializers.py`) -/

/-- A validated submission, the fields of `AgentRunCreateSerializer`
(`api/serializers.py`).  `params` and `metadata` default to the empty
dict and `max_attempts` to 3 when omitted; `idempotency_key` is a
`CharField` without `allow_blank`, so a validated value is never the
empty string. -/
structure SubmitData where
  agent_key : String
  conversation_id : Option ℕ
  messages : List PyDict
  params : PyDict
  max_attempts : ℕ
  idempotency_key : Option String
  metadata : PyDict
deriving DecidableEq, Repr

/-- The response of the create endpoint: an error body with an HTTP
status, or a serialized run record with an HTTP status. -/
inductive CreateResult where
  | err (code : ℕ) (msg : String)
  | record (code : ℕ) (run : Run)
deriving DecidableEq, Repr

/-- Python dict update `d[k] = v`, up to the mapping it denotes (the
model drops any earlier binding of `k` and appends the new one). -/
def dict_set (d : PyDict) (k : String) (v : PyVal) : PyDict :=
  (d.filter (fun kv => kv.1 ≠ k)) ++ [(k, v)]

/-- The `AgentRun.objects.create(...)` call inside
`AgentRunViewSet.create` (`api/views.py`): a fresh QUEUED row built from
the validated data, with `metadata` extended by the resolved
`conversation_id` (stringified, or `None`).  Column defaults
(`status=queued`, `attempt=1`, empty output/error/lease) come from
`models/base.py`. -/
def new_run (data : SubmitData) (conversation : Option ℕ) (fresh_id : ℕ)
    (now : ℤ) : Run :=
  { id := fresh_id
    conversation_id := conversation
    agent_key := data.agent_key
    status := RunStatus.queued
    input_messages := data.messages
    input_params := data.params
    output := []
    error := none
    attempt := 1
    max_attempts := data.max_attempts
    lease_owner := ""
    lease_expires_at := none
    idempotency_key := data.idempotency_key
    cancel_requested_at := none
    created_at := now
    started_at := none
    finished_at := none
    metadata :=
      dict_set data.metadata "conversation_id"
        (match conversation with
         | some c => PyVal.pyStr (toString c)
         | none => PyVal.pyNone) }

/-- `AgentRunViewSet.create` (`api/views.py`) after serializer
validation.  `authz_ok` and `quota_ok` are the outcomes of the optional
authorization and quota hooks (`true` when the hook is absent or
accepts); `conv_found` is whether the `AgentConversation.objects.get`
lookup succeeded for the requesting user.  The Python truthiness test
`if data.get("idempotency_key")` skips the idempotency lookup for an
absent (or blank) key; the lookup is
`AgentRun.objects.filter(idempotency_key=k).first()` over the whole run
table, here `List.find?` (at most one row can match thanks to the
`unique` constraint on the column).  With the default `postgres` queue
backend no further side effect happens before the response. -/
def create (authz_ok quota_ok conv_found : Bool) (store : List Run)
    (data : SubmitData) (fresh_id : ℕ) (now : ℤ) : CreateResult × List Run :=
  if authz_ok = false then
    (CreateResult.err 403 "Not authorized to create this run", store)
  else if quota_ok = false then
    (CreateResult.err 429 "Quota exceeded", store)
  else if data.conversation_id.isSome ∧ conv_found = false then
    (CreateResult.err 404 "Conversation not found", store)
  else
    let conversation := data.conversation_id
    let hit : Option Run :=
      match data.idempotency_key with
      | some k =>
        if k ≠ "" then store.find? (fun r => r.idempotency_key = some k)
        else none
      | none => none
    match hit with
    | some existing => (CreateResult.record 200 existing, store)
    | none =>
      let run := new_run data conversation fresh_id now
      (CreateResult.record 201 run, store ++ [run])

/-- An HTTP response with a dict body, for the cancel endpoint. -/
structure HttpResp where
  code : ℕ
  body : PyDict
deriving DecidableEq, Repr

/-- `AgentRunViewSet.cancel` (`api/views.py`): 400 with an error body
when the run is already terminal; otherwise stamp
`cancel_requested_at = timezone.now()`, save exactly that field
(`update_fields`), and answer 200 with the acknowledgement body. -/
def cancel (run : Run) (now : ℤ) : HttpResp × Run :=
  if run.is_terminal then
    ({ code := 400, body := [("error", PyVal.pyStr "Run is already complete")] }, run)
  else
    ({ code := 200, body := [("status", PyVal.pyStr "cancellation_requested")] },
      { run with cancel_requested_at := some now })

/-! ### The SSE generator (`AgentRunViewSet._event_stream`, `api/views.py`)

The generator polls the database in a loop.  Each iteration is modelled
by a `Poll`: the event rows of the run at that instant and the run row's
status (`none` when `AgentRun.objects.get` raises `DoesNotExist`).  The
stream is observed along a finite list of polls; the generator also stops
when that list is exhausted (the client disconnecting). -/

/-- One polling iteration's database snapshot: the event rows of the
streamed run, and the run's status as seen by the completeness check. -/
structure Poll where
  events : List Event
  run_status : Option RunStatus
deriving Repr

/-- An item written by the SSE generator: a `data:` frame carrying an
event, or the `: keepalive` comment line. -/
inductive SSEItem where
  | data (e : Event)
  | keepalive
deriving DecidableEq, Repr

/-- The terminal event types the generator checks for
(`api/views.py`). -/
def is_terminal_event (ty : String) : Bool :=
  ty = "run.succeeded" ∨ ty = "run.failed" ∨ ty = "run.cancelled" ∨ ty = "run.timed_out"

/-- The ordering used by the `ORDER BY seq` clause. -/
def seqLE (a b : Event) : Prop := a.seq ≤ b.seq

instance : DecidableRel seqLE := fun a b => inferInstanceAs (Decidable (a.seq ≤ b.seq))

instance : IsTotal Event seqLE := ⟨fun a b => le_total a.seq b.seq⟩

instance : IsTrans Event seqLE := ⟨fun _ _ _ h h2 => le_trans h h2⟩

/-- The query `AgentEvent.objects.filter(run_id=..., seq__gte=cur).order_by("seq")`
over the run's rows: keep rows with `seq ≥ cur` and sort them by `seq`. -/
def db_query (rows : List Event) (cur : ℤ) : List Event :=
  List.insertionSort seqLE (rows.filter (fun e => cur ≤ e.seq))

/-- The inner `for event in events` loop of `_event_stream`: yield each
event as a `data:` frame, advance `current_seq` to `seq + 1`, and return
as soon as a terminal event has been yielded.  Result: the yielded items,
the final `current_seq`, and whether the generator returned. -/
def process_batch : List Event → ℤ → List SSEItem × ℤ × Bool
  | [], cur => ([], cur, false)
  | e :: rest, _cur =>
    if is_terminal_event e.event_type then ([SSEItem.data e], e.seq + 1, true)
    else
      let r := process_batch rest (e.seq + 1)
      (SSEItem.data e :: r.1, r.2)

/-- `AgentRunViewSet._event_stream` (`api/views.py`) observed along a
finite list of polls: each iteration fetches the batch at the current
lower bound, yields it via `process_batch` and stops on a terminal event;
otherwise it stops silently when the run row is gone or already terminal,
and else writes a keepalive comment and polls again. -/
def event_stream : ℤ → List Poll → List SSEItem
  | _, [] => []
  | cur, poll :: polls =>
    let r := process_batch (db_query poll.events cur) cur
    if r.2.2 then r.1
    else
      match poll.run_status with
      | none => r.1
      | some st =>
        if st.isTerminalStatus then r.1
        else r.1 ++ [SSEItem.keepalive] ++ event_stream r.2.1 polls

/-- The sequence numbers of the `data:` frames of a stream, in order. -/
def stream_seqs : List SSEItem → List ℤ
  | [] => []
  | SSEItem.data e :: rest => e.seq :: stream_seqs rest
  | SSEItem.keepalive :: rest => stream_seqs rest

/-- Whether no `data:` frame of the list carries a terminal event. -/
def no_terminal_frame : List SSEItem → Bool
  | [] => true
  | SSEItem.data e :: rest => !is_terminal_event e.event_type && no_terminal_frame rest
  | SSEItem.keepalive :: rest => no_terminal_frame rest

/-- Whether the list yields nothing after a terminal `data:` frame: every
terminal frame, if any, is its very last item. -/
def well_terminated : List SSEItem → Bool
  | [] => true
  | SSEItem.data e :: rest =>
    if is_terminal_event e.event_type then rest.isEmpty else well_terminated rest
  | SSEItem.keepalive :: rest => well_terminated rest

/-! ### Event serialization (`Event.to_dict` / `Event.from_dict`,
`runtime/events/base.py`)

The serialized form has one more nesting level than payloads (`DictVal`).
The standard-library codecs `str(UUID)` / `UUID(str)` and
`datetime.isoformat` / `datetime.fromisoformat` are outside the
repository; they enter the model as function parameters, and the claims
about them (that parsing undoes printing) are hypotheses. -/

/-- A value of the dict produced by `Event.to_dict`: a string, an int, or
the (payload) dict. -/
inductive DictVal where
  | vStr (s : String)
  | vInt (n : ℤ)
  | vDict (d : PyDict)
deriving DecidableEq, Repr

/-- `Event.to_dict` (`runtime/events/base.py`): the five keys `run_id`
(stringified UUID), `seq`, `type`, `payload`, `ts` (ISO-format
timestamp).  `uuid_str` models `str` on a UUID and `isoformat` the
timestamp printer. -/
def to_dict (uuid_str : ℕ → String) (isoformat : ℤ → String) (e : Event) :
    List (String × DictVal) :=
  [("run_id", DictVal.vStr (uuid_str e.run_id)),
   ("seq", DictVal.vInt e.seq),
   ("type", DictVal.vStr e.event_type),
   ("payload", DictVal.vDict e.payload),
   ("ts", DictVal.vStr (isoformat e.timestamp))]

/-- Read a string value out of a dict lookup result. -/
def asStr : Option DictVal → Option String
  | some (DictVal.vStr s) => some s
  | _ => none

/-- Read an int value out of a dict lookup result. -/
def asInt : Option DictVal → Option ℤ
  | some (DictVal.vInt n) => some n
  | _ => none

/-- `Event.from_dict` (`runtime/events/base.py`): rebuild the event from
the dict, with `payload` read through `data.get` so that a missing key
defaults to the empty dict.  `uuid_of_str` models the `UUID(...)`
constructor and `fromisoformat` the timestamp parser; a missing key, a
value of the wrong shape, or a parser failure (a raised `ValueError`)
yields `none`. -/
def from_dict (uuid_of_str : String → Option ℕ)
    (fromisoformat : String → Option ℤ)
    (data : List (String × DictVal)) : Option Event := do
  let rs ← asStr (data.lookup "run_id")
  let rid ← uuid_of_str rs
  let sq ← asInt (data.lookup "seq")
  let ty ← asStr (data.lookup "type")
  let p ←
    (match data.lookup "payload" with
     | none => some ([] : PyDict)
     | some (DictVal.vDict d) => some d
     | some _ => none)
  let tss ← asStr (data.lookup "ts")
  let t ← fromisoformat tss
  pure { run_id := rid, seq := sq, event_type := ty, payload := p, timestamp := t }

/-- A sample run row used to instantiate theorems on concrete inputs. -/
def exRun (st : RunStatus) : Run :=
  { id := 1
    conversation_id := none
    agent_key := "echo"
    status := st
    input_messages := []
    input_params := []
    output := []
    error := none
    attempt := 1
    max_attempts := 3
    lease_owner := "w"
    lease_expires_at := some 100
    idempotency_key := none
    cancel_requested_at := none
    created_at := 0
    started_at := some 0
    finished_at := none
    metadata := [] }

/-- A sample run context used to instantiate theorems on concrete
inputs. -/
def exCtx : RunContextImpl :=
  { run_id := 1
    conversation_id := none
    input_messages := []
    params := []
    seq := 0
    state := none
    is_cancelled := false }

/-- A sample validated submission used to instantiate theorems on
concrete inputs. -/
def exSubmit : SubmitData :=
  { agent_key := "echo"
    conversation_id := none
    messages := [[("role", PyVal.pyStr "user"), ("content", PyVal.pyStr "hi")]]
    params := []
    max_attempts := 3
    idempotency_key := some "abc"
    metadata := [] }

/-- A sample claimed run used to instantiate theorems on concrete
inputs. -/
def exQueued : QueuedRun :=
  { run_id := 1
    agent_key := "echo"
    attempt := 1
    input_messages := []
    input_params := []
    conversation_id := none }

/-! ## Theorems -/

/-- Helper: the maximum of a list with one element appended. -/
theorem max?_append_singleton (l : List ℤ) (a : ℤ) :
    (l ++ [a]).max? =
      some (match l.max? with | none => a | some m => max m a) := by
  cases l with
  | nil => simp
  | cons b l' =>
    rw [List.cons_append, List.max?_cons', List.max?_cons', List.foldl_append]
    rfl

/-- Helper: `natRange` grows on the right. -/
theorem natRange_succ (n : ℕ) : natRange (n + 1) = natRange n ++ [(n : ℤ)] := by
  simp [natRange, List.range_succ]

/-- Helper: the maximum of `natRange (n+1)` is `n`. -/
theorem natRange_max (n : ℕ) : (natRange (n + 1)).max? = some (n : ℤ) := by
  induction n with
  | zero => rfl
  | succ m ih =>
    rw [natRange_succ (m + 1), max?_append_singleton, ih]
    have h : ((m : ℤ)) ≤ ((m + 1 : ℕ) : ℤ) := by exact_mod_cast Nat.le_succ m
    simp [max_eq_right h]

/-- C1: the claim states that the delay passed to `requeue_for_retry` for
a run at attempt `a` is `min(RETRY_BACKOFF_BASE ^ a, RETRY_BACKOFF_MAX)`
(4 s after attempt 2 with the defaults).  The code disagrees:
`_calculate_backoff` hardcodes `attempt = 1`, so the delay the runner
passes for a retriable error on a run at attempt 2 is 2 s, not the 4 s
the claim requires. -/
theorem calculate_backoff_ignores_attempt :
    calculate_backoff defaultSettings = 2 ∧
    (handle_error defaultSettings "w" exCtx [] { exRun RunStatus.running with attempt := 2 }
        { type := "ValueError", message := "boom", stack := none,
          retriable := true, details := none } 50).requeue_delay = some 2 ∧
    specBackoff defaultSettings 2 = 4 := by
  refine ⟨?_, ?_, ?_⟩
  · decide
  · decide
  · norm_num [specBackoff, defaultSettings]

/-- C2: the claim states that when `extend_lease` returns `false` the
worker aborts the callback and emits no further events for the run.  The
code disagrees: the heartbeat loop's lease-lost branch only logs and
breaks out of the loop, and `run_once` never consults that outcome - with
a lost lease at the first tick and a callback that then completes, the
worker still emits `run.succeeded` after the lease was lost. -/
theorem lease_loss_does_not_abort_run :
    (heartbeat_loop [false]).2 = true ∧
    run_once_trace [false] [] false = ["run.started", "run.succeeded"] := by
  refine ⟨rfl, rfl⟩

/-- C7: the cancel endpoint stamps `cancel_requested_at = now` on a
non-terminal run, changes nothing else, and acknowledges with HTTP 200;
on a terminal run it answers HTTP 400 and leaves the row unchanged. -/
theorem cancel_endpoint_spec (run : Run) (now : ℤ) :
    (run.is_terminal = false →
      cancel run now =
        ({ code := 200, body := [("status", PyVal.pyStr "cancellation_requested")] },
         { run with cancel_requested_at := some now })) ∧
    (run.is_terminal = true →
      cancel run now =
        ({ code := 400, body := [("error", PyVal.pyStr "Run is already complete")] },
         run)) := by
  constructor <;> intro h <;> simp [cancel, h]

/-- Witness for C7 at a queued and a succeeded run. -/
theorem cancel_endpoint_spec_witness :
    cancel (exRun RunStatus.queued) 5 =
      ({ code := 200, body := [("status", PyVal.pyStr "cancellation_requested")] },
       { exRun RunStatus.queued with cancel_requested_at := some 5 }) ∧
    cancel (exRun RunStatus.succeeded) 5 =
      ({ code := 400, body := [("error", PyVal.pyStr "Run is already complete")] },
       exRun RunStatus.succeeded) :=
  ⟨(cancel_endpoint_spec (exRun RunStatus.queued) 5).1 (by decide),
   (cancel_endpoint_spec (exRun RunStatus.succeeded) 5).2 (by decide)⟩

/-- C4: with the hooks passing and the conversation (when named)
resolved, a submission whose idempotency key matches an existing run
answers HTTP 200 with that run's record and leaves the run table
unchanged, while a submission with an absent or unmatched key appends
exactly one new run and answers HTTP 201 with it.  (A validated key is
never the empty string: the serializer field has no `allow_blank`.) -/
theorem create_idempotent_or_new (store : List Run) (data : SubmitData)
    (fresh_id : ℕ) (now : ℤ) (k : String) (r : Run)
    (hblank : data.idempotency_key ≠ some "") :
    (data.idempotency_key = some k →
      store.find? (fun x => x.idempotency_key = some k) = some r →
      create true true true store data fresh_id now =
        (CreateResult.record 200 r, store)) ∧
    ((data.idempotency_key = none ∨
        (data.idempotency_key = some k ∧
          store.find? (fun x => x.idempotency_key = some k) = none)) →
      create true true true store data fresh_id now =
        (CreateResult.record 201 (new_run data data.conversation_id fresh_id now),
         store ++ [new_run data data.conversation_id fresh_id now])) := by
  constructor
  · intro hk hfind
    have hk' : ¬ k = "" := by
      intro he
      exact hblank (by rw [hk, he])
    simp [create, hk, hk', hfind]
  · rintro (hk | ⟨hk, hfind⟩)
    · simp [create, hk]
    · have hk' : ¬ k = "" := by
        intro he
        exact hblank (by rw [hk, he])
      simp [create, hk, hk', hfind]

/-- Witness for C4: an idempotency hit answers 200 with the stored run
and adds no row. -/
theorem create_idempotent_or_new_witness :
    create true true true [{ exRun RunStatus.queued with idempotency_key := some "abc" }]
      exSubmit 9 0 =
      (CreateResult.record 200 { exRun RunStatus.queued with idempotency_key := some "abc" },
       [{ exRun RunStatus.queued with idempotency_key := some "abc" }]) :=
  (create_idempotent_or_new
      [{ exRun RunStatus.queued with idempotency_key := some "abc" }]
      exSubmit 9 0 "abc" { exRun RunStatus.queued with idempotency_key := some "abc" }
      (by decide)).1 (by decide) (by decide)

/-- C5: when the callback overruns the wall-clock deadline the runner
appends a `run.timed_out` event whose payload carries
`RUN_TIMEOUT_SECONDS`, and releases the run (lease held) with the
non-retriable `TimeoutError` error, leaving it in the terminal
TIMED_OUT status; no `requeue_for_retry` call happens on this path. -/
theorem timeout_terminal_not_retried (s : RuntimeSettings) (worker : String)
    (ctx : RunContextImpl) (store : List Event) (run : Run) (now : ℤ)
    (h : run.lease_owner = worker) :
    (handle_timeout s worker ctx store run now).store =
      store ++ [{ run_id := ctx.run_id, seq := ctx.seq,
                  event_type := "run.timed_out",
                  payload := [("timeout_seconds", PyVal.pyInt s.RUN_TIMEOUT_SECONDS)],
                  timestamp := now }] ∧
    (handle_timeout s worker ctx store run now).run.status = RunStatus.timedOut ∧
    (handle_timeout s worker ctx store run now).run.is_terminal = true ∧
    (handle_timeout s worker ctx store run now).run.error =
      some { type := "TimeoutError"
             message := "Run exceeded " ++ toString s.RUN_TIMEOUT_SECONDS ++ "s timeout"
             stack := none
             retriable := false
             details := none } ∧
    (handle_timeout s worker ctx store run now).requeue_delay = none := by
  refine ⟨rfl, ?_, ?_, ?_, rfl⟩ <;>
    simp [handle_timeout, emit, release, h, Run.is_terminal, RunStatus.isTerminalStatus]

/-- Witness for C5 at the default settings and a concrete leased run. -/
theorem timeout_terminal_not_retried_witness :
    (handle_timeout defaultSettings "w" exCtx [] (exRun RunStatus.running) 7).run.status =
        RunStatus.timedOut ∧
    (handle_timeout defaultSettings "w" exCtx [] (exRun RunStatus.running) 7).requeue_delay =
        none :=
  ⟨(timeout_terminal_not_retried defaultSettings "w" exCtx [] (exRun RunStatus.running) 7
      (by decide)).2.1,
   (timeout_terminal_not_retried defaultSettings "w" exCtx [] (exRun RunStatus.running) 7
      (by decide)).2.2.2.2⟩

/-- C9: when `publish` raises inside `emit`, the exception propagates,
and neither the `_seq` counter nor the store changed - so a subsequent
successful emit publishes at exactly the sequence number the failed
attempt used, leaving no gap. -/
theorem emit_failure_preserves_seq (ctx : RunContextImpl) (store : List Event)
    (ty ty2 : String) (p p2 : PyDict) (now now2 : ℤ) :
    emit ctx store ty p now false =
      (Except.error "EventBus.publish raised", ctx, store) ∧
    (emit ctx store ty2 p2 now2 true).2.2 =
      store ++ [{ run_id := ctx.run_id, seq := ctx.seq, event_type := ty2,
                  payload := p2, timestamp := now2 }] ∧
    (emit ctx store ty2 p2 now2 true).2.1.seq = ctx.seq + 1 := by
  refine ⟨rfl, rfl, rfl⟩

/-- C10: `from_dict` is a left inverse of `to_dict` on every event, given
that the standard-library codecs undo each other (`UUID(str(u)) = u`,
`fromisoformat(isoformat(t)) = t`). -/
theorem from_dict_undoes_to_dict
    (uuid_str : ℕ → String) (isoformat : ℤ → String)
    (uuid_of_str : String → Option ℕ) (fromisoformat : String → Option ℤ)
    (e : Event)
    (h1 : uuid_of_str (uuid_str e.run_id) = some e.run_id)
    (h2 : fromisoformat (isoformat e.timestamp) = some e.timestamp) :
    from_dict uuid_of_str fromisoformat (to_dict uuid_str isoformat e) = some e := by
  simp [from_dict, to_dict, asStr, asInt, List.lookup, h1, h2]

/-- Witness for C10 at a concrete event and concrete codecs. -/
theorem from_dict_undoes_to_dict_witness :
    from_dict (fun _ => some 7) (fun _ => some 3)
      (to_dict (fun _ => "u") (fun _ => "t")
        { run_id := 7, seq := 2, event_type := "run.started",
          payload := [("agent_key", PyVal.pyStr "echo")], timestamp := 3 }) =
      some { run_id := 7, seq := 2, event_type := "run.started",
             payload := [("agent_key", PyVal.pyStr "echo")], timestamp := 3 } :=
  from_dict_undoes_to_dict _ _ _ _ _ rfl rfl

/-- Helper: when a run's stored sequence numbers are exactly
`0 .. n-1`, `get_next_seq` returns `n`. -/
theorem get_next_seq_range (store : List Event) (rid : ℕ) (n : ℕ)
    (h : runSeqs store rid = natRange n) : get_next_seq store rid = (n : ℤ) := by
  unfold get_next_seq
  rw [h]
  cases n with
  | zero => simp [natRange]
  | succ m =>
    rw [natRange_max m]
    push_cast
    ring

/-- Helper: appending an event of the run appends its seq to
`runSeqs`. -/
theorem runSeqs_append_own (store : List Event) (e : Event) (rid : ℕ)
    (h : e.run_id = rid) :
    runSeqs (store ++ [e]) rid = runSeqs store rid ++ [e.seq] := by
  unfold runSeqs
  rw [List.filter_append]
  simp [h]

/-- Helper: starting from counter `n` over a store whose sequence
numbers for the context's run are `0 .. n-1`, a chain of successful
emits extends them to `0 .. n+k-1`. -/
theorem emitAll_seqs (reqs : List (String × PyDict)) :
    ∀ (ctx : RunContextImpl) (store : List Event) (n : ℕ) (now : ℤ),
      ctx.seq = (n : ℤ) → runSeqs store ctx.run_id = natRange n →
      runSeqs (emitAll ctx store reqs now).2 ctx.run_id =
        natRange (n + reqs.length) := by
  induction reqs with
  | nil =>
    intro ctx store n now _ h2
    simpa using h2
  | cons req rest ih =>
    intro ctx store n now h1 h2
    obtain ⟨ty, p⟩ := req
    have hstep : emitAll ctx store ((ty, p) :: rest) now =
        emitAll { ctx with seq := ctx.seq + 1 }
          (store ++ [{ run_id := ctx.run_id, seq := ctx.seq, event_type := ty,
                       payload := p, timestamp := now }]) rest now := rfl
    rw [hstep]
    have h2' : runSeqs
        (store ++ [{ run_id := ctx.run_id, seq := ctx.seq, event_type := ty,
                     payload := p, timestamp := now }]) ctx.run_id =
        natRange (n + 1) := by
      rw [runSeqs_append_own store _ ctx.run_id rfl, h2, natRange_succ, h1]
    have h1' : ({ ctx with seq := ctx.seq + 1 } : RunContextImpl).seq =
        ((n + 1 : ℕ) : ℤ) := by
      show ctx.seq + 1 = ((n + 1 : ℕ) : ℤ)
      rw [h1]
      push_cast
      ring
    have := ih { ctx with seq := ctx.seq + 1 }
      (store ++ [{ run_id := ctx.run_id, seq := ctx.seq, event_type := ty,
                   payload := p, timestamp := now }]) (n + 1) now h1' h2'
    have harith : n + 1 + rest.length = n + (rest.length + 1) := by omega
    rw [harith] at this
    simpa using this

/-- C3: the context counter is initialized from
`event_bus.get_next_seq` (which is 0 on an empty store), and each
successful publish appends the current counter value and bumps it by
one - so a run whose stored sequence numbers form the contiguous prefix
`0 .. n-1` still has a contiguous prefix, `0 .. n+k-1`, after any `k`
further emits through the context. -/
theorem emit_seq_contiguous (store : List Event) (queued : QueuedRun)
    (reqs : List (String × PyDict)) (now : ℤ) (n : ℕ)
    (h : runSeqs store queued.run_id = natRange n) :
    (build_context store queued).seq = (n : ℤ) ∧
    get_next_seq [] queued.run_id = 0 ∧
    runSeqs (emitAll (build_context store queued) store reqs now).2
        queued.run_id =
      natRange (n + reqs.length) := by
  have hseq : (build_context store queued).seq = (n : ℤ) :=
    get_next_seq_range store queued.run_id n h
  refine ⟨hseq, rfl, ?_⟩
  exact emitAll_seqs reqs (build_context store queued) store n now hseq h

/-- Witness for C3: one stored event with seq 0, then two emits, give
seqs 0, 1, 2. -/
theorem emit_seq_contiguous_witness :
    runSeqs (emitAll (build_context
        [{ run_id := 1, seq := 0, event_type := "run.started",
           payload := [], timestamp := 0 }] exQueued)
        [{ run_id := 1, seq := 0, event_type := "run.started",
           payload := [], timestamp := 0 }]
        [("assistant.message", []), ("run.succeeded", [])] 0).2 1 =
      natRange 3 :=
  (emit_seq_contiguous
      [{ run_id := 1, seq := 0, event_type := "run.started",
         payload := [], timestamp := 0 }] exQueued
      [("assistant.message", []), ("run.succeeded", [])] 0 1 (by decide)).2.2

/-- Helper: the max-picking fold of `latest_checkpoint`, seeded with a
row, lands on the maximal seq. -/
theorem latest_foldl_aux (rest : List Checkpoint) :
    ∀ b : Checkpoint,
      ((rest.foldl (fun acc c =>
          match acc with
          | none => some c
          | some b' => if b'.seq < c.seq then some c else some b') (some b)).map
        (fun c => c.seq)) =
      some (rest.foldl (fun m c => max m c.seq) b.seq) := by
  induction rest with
  | nil => intro b; rfl
  | cons c rest ih =>
    intro b
    rw [List.foldl_cons, List.foldl_cons]
    by_cases hbc : b.seq < c.seq
    · simp only [hbc, if_true]
      rw [ih c, max_eq_right (le_of_lt hbc)]
    · simp only [hbc, if_false]
      rw [ih b, max_eq_left (le_of_not_lt hbc)]

/-- Helper: the seq of the row `latest_checkpoint` returns is the
maximum stored seq of the run. -/
theorem latest_checkpoint_seq (cps : List Checkpoint) (rid : ℕ) :
    (latest_checkpoint cps rid).map (fun c => c.seq) =
      ((cps.filter (fun c => c.run_id = rid)).map (fun c => c.seq)).max? := by
  unfold latest_checkpoint
  generalize cps.filter (fun c => c.run_id = rid) = l
  cases l with
  | nil => rfl
  | cons c rest =>
    rw [List.map_cons, List.max?_cons', List.foldl_map]
    exact latest_foldl_aux rest c

/-- Helper: `next_checkpoint_seq` is one more than the highest stored
checkpoint seq of the run, or 0 when there is none. -/
theorem next_checkpoint_seq_spec (cps : List Checkpoint) (rid : ℕ) :
    next_checkpoint_seq cps rid =
      (match ((cps.filter (fun c => c.run_id = rid)).map (fun c => c.seq)).max? with
       | some m => m + 1
       | none => 0) := by
  have h := latest_checkpoint_seq cps rid
  unfold next_checkpoint_seq
  cases hl : latest_checkpoint cps rid with
  | none =>
    rw [hl] at h
    rw [← h]
    rfl
  | some c =>
    rw [hl] at h
    rw [← h]
    rfl

/-- Helper: appending a row of the run post-composes the max-picking
fold with one more pick. -/
theorem latest_checkpoint_append (cps : List Checkpoint) (c : Checkpoint)
    (rid : ℕ) (h : c.run_id = rid) :
    latest_checkpoint (cps ++ [c]) rid =
      (match latest_checkpoint cps rid with
       | none => some c
       | some b => if b.seq < c.seq then some c else some b) := by
  unfold latest_checkpoint
  rw [List.filter_append, List.foldl_append]
  simp [h]

/-- Helper: the row `checkpoint` appends becomes the run's highest-seq
checkpoint. -/
theorem latest_after_checkpoint (cps : List Checkpoint) (rid : ℕ) (st : PyDict) :
    latest_checkpoint
        (cps ++ [{ run_id := rid, seq := next_checkpoint_seq cps rid, state := st }]) rid =
      some { run_id := rid, seq := next_checkpoint_seq cps rid, state := st } := by
  rw [latest_checkpoint_append _ _ _ rfl]
  unfold next_checkpoint_seq
  cases hl : latest_checkpoint cps rid with
  | none => rfl
  | some b =>
    simp only [next_checkpoint_seq, hl]
    rw [if_pos (Nat.lt_succ_self b.seq)]

/-- C8: `checkpoint` appends a row at one more than the run's previous
highest checkpoint seq (0 when there was none), then emits a
`state.checkpoint` event; afterwards `get_state` returns the state just
saved, which is that of the highest-seq checkpoint - and on a context
with nothing cached and no stored checkpoint, `get_state` returns
`none`. -/
theorem checkpoint_append_and_latest (ctx : RunContextImpl)
    (cps : List Checkpoint) (store : List Event) (st : PyDict) (now : ℤ)
    (ctx2 : RunContextImpl) (cps2 : List Checkpoint)
    (h1 : ctx2.state = none)
    (h2 : cps2.filter (fun c => c.run_id = ctx2.run_id) = []) :
    (checkpoint ctx cps store st now).2.1 =
      cps ++ [{ run_id := ctx.run_id, seq := next_checkpoint_seq cps ctx.run_id,
                state := st }] ∧
    next_checkpoint_seq cps ctx.run_id =
      (match ((cps.filter (fun c => c.run_id = ctx.run_id)).map (fun c => c.seq)).max? with
       | some m => m + 1
       | none => 0) ∧
    (checkpoint ctx cps store st now).2.2 =
      store ++ [{ run_id := ctx.run_id, seq := ctx.seq,
                  event_type := "state.checkpoint",
                  payload := [("seq", PyVal.pyInt (ctx.seq - 1))],
                  timestamp := now }] ∧
    get_state (checkpoint ctx cps store st now).1
        (checkpoint ctx cps store st now).2.1 = some st ∧
    latest_checkpoint (checkpoint ctx cps store st now).2.1 ctx.run_id =
      some { run_id := ctx.run_id, seq := next_checkpoint_seq cps ctx.run_id,
             state := st } ∧
    get_state ctx2 cps2 = none := by
  refine ⟨rfl, next_checkpoint_seq_spec cps ctx.run_id, rfl, rfl, ?_, ?_⟩
  · exact latest_after_checkpoint cps ctx.run_id st
  · simp [get_state, h1, latest_checkpoint, h2]

/-- Witness for C8: a first checkpoint is readable back, and a fresh
context over an empty checkpoint table reads `none`. -/
theorem checkpoint_append_and_latest_witness :
    get_state (checkpoint exCtx [] [] [("k", PyVal.pyInt 1)] 0).1
        (checkpoint exCtx [] [] [("k", PyVal.pyInt 1)] 0).2.1 =
      some [("k", PyVal.pyInt 1)] ∧
    get_state exCtx [] = none :=
  ⟨(checkpoint_append_and_latest exCtx [] [] [("k", PyVal.pyInt 1)] 0 exCtx []
      rfl rfl).2.2.2.1,
   (checkpoint_append_and_latest exCtx [] [] [("k", PyVal.pyInt 1)] 0 exCtx []
      rfl rfl).2.2.2.2.2⟩

/-- Helper: `stream_seqs` distributes over appending. -/
theorem stream_seqs_append (l1 l2 : List SSEItem) :
    stream_seqs (l1 ++ l2) = stream_seqs l1 ++ stream_seqs l2 := by
  induction l1 with
  | nil => rfl
  | cons x rest ih =>
    cases x with
    | data e => simp [stream_seqs, ih]
    | keepalive => simp [stream_seqs, ih]

/-- Helper: every member of `stream_seqs` is the seq of a yielded data
frame. -/
theorem stream_seqs_mem (l : List SSEItem) :
    ∀ s ∈ stream_seqs l, ∃ x, SSEItem.data x ∈ l ∧ x.seq = s := by
  induction l with
  | nil => intro s hs; simp [stream_seqs] at hs
  | cons x rest ih =>
    intro s hs
    cases x with
    | data e =>
      rcases (by simpa [stream_seqs] using hs : s = e.seq ∨ s ∈ stream_seqs rest) with
        rfl | hmem
      · exact ⟨e, by simp, rfl⟩
      · obtain ⟨y, hy, hys⟩ := ih s hmem
        exact ⟨y, List.mem_cons_of_mem _ hy, hys⟩
    | keepalive =>
      obtain ⟨y, hy, hys⟩ := ih s (by simpa [stream_seqs] using hs)
      exact ⟨y, List.mem_cons_of_mem _ hy, hys⟩

/-- Helper: a terminal-frame-free prefix passes `well_terminated` through
an append. -/
theorem well_terminated_append (l1 l2 : List SSEItem)
    (h : no_terminal_frame l1 = true) :
    well_terminated (l1 ++ l2) = well_terminated l2 := by
  induction l1 with
  | nil => rfl
  | cons x rest ih =>
    cases x with
    | data e =>
      have h' := by simpa [no_terminal_frame] using h
      rw [List.cons_append]
      show (if is_terminal_event e.event_type then ((rest ++ l2).isEmpty) else
        well_terminated (rest ++ l2)) = well_terminated l2
      rw [if_neg (by simp [h'.1]), ih h'.2]
    | keepalive =>
      rw [List.cons_append]
      show well_terminated (rest ++ l2) = well_terminated l2
      exact ih (by simpa [no_terminal_frame] using h)

/-- Helper: a keepalive at the end keeps a list terminal-frame-free. -/
theorem no_terminal_frame_keepalive (l : List SSEItem)
    (h : no_terminal_frame l = true) :
    no_terminal_frame (l ++ [SSEItem.keepalive]) = true := by
  induction l with
  | nil => rfl
  | cons x rest ih =>
    cases x with
    | data e =>
      have h' := by simpa [no_terminal_frame] using h
      simpa [no_terminal_frame, h'.1] using ih h'.2
    | keepalive =>
      simpa [no_terminal_frame] using ih (by simpa [no_terminal_frame] using h)

/-- Helper: a `well_terminated` list yields nothing after a terminal
data frame. -/
theorem well_terminated_closed :
    ∀ (pre : List SSEItem) (e : Event) (post : List SSEItem),
      well_terminated (pre ++ SSEItem.data e :: post) = true →
      is_terminal_event e.event_type = true → post = [] := by
  intro pre
  induction pre with
  | nil =>
    intro e post h ht
    rw [List.nil_append] at h
    have h' : (if is_terminal_event e.event_type then post.isEmpty else
        well_terminated post) = true := h
    rw [if_pos ht] at h'
    simpa using h'
  | cons x pre ih =>
    intro e post h ht
    cases x with
    | keepalive =>
      exact ih e post (by simpa [well_terminated] using h) ht
    | data x =>
      by_cases hx : is_terminal_event x.event_type
      · exfalso
        have h' : ((pre ++ SSEItem.data e :: post).isEmpty) = true := by
          simp only [well_terminated, hx, if_true, List.cons_append] at h
          exact h
        cases pre <;> simp at h'
      · exact ih e post (by simpa [well_terminated, hx] using h) ht

/-- Helper: the yielded batch always satisfies `well_terminated`. -/
theorem process_batch_well_terminated (batch : List Event) :
    ∀ cur : ℤ, well_terminated (process_batch batch cur).1 = true := by
  induction batch with
  | nil => intro cur; rfl
  | cons x rest ih =>
    intro cur
    by_cases hx : is_terminal_event x.event_type
    · simp [process_batch, hx, well_terminated]
    · simpa [process_batch, hx, well_terminated] using ih (x.seq + 1)

/-- Helper: when the batch contained no terminal event, the yielded
frames are terminal-free. -/
theorem process_batch_no_terminal (batch : List Event) :
    ∀ cur : ℤ, (process_batch batch cur).2.2 = false →
      no_terminal_frame (process_batch batch cur).1 = true := by
  induction batch with
  | nil => intro cur _; rfl
  | cons x rest ih =>
    intro cur hstop
    by_cases hx : is_terminal_event x.event_type
    · simp [process_batch, hx] at hstop
    · have hstop' : (process_batch rest (x.seq + 1)).2.2 = false := by
        simpa [process_batch, hx] using hstop
      simpa [process_batch, hx, no_terminal_frame] using ih (x.seq + 1) hstop'

/-- Helper: membership, bounds and strict ordering of one processed
batch, given strictly increasing input seqs bounded below by the
cursor. -/
theorem process_batch_facts (batch : List Event) :
    ∀ cur : ℤ,
      ((batch.map (fun e => e.seq)).Pairwise (· < ·)) →
      (∀ e ∈ batch, cur ≤ e.seq) →
      (∀ e, SSEItem.data e ∈ (process_batch batch cur).1 →
        e ∈ batch ∧ e.seq < (process_batch batch cur).2.1) ∧
      cur ≤ (process_batch batch cur).2.1 ∧
      (stream_seqs (process_batch batch cur).1).Pairwise (· < ·) := by
  induction batch with
  | nil =>
    intro cur _ _
    refine ⟨?_, by simp [process_batch], by simp [process_batch, stream_seqs]⟩
    intro e he
    simp [process_batch] at he
  | cons x rest ih =>
    intro cur hsort hlo
    have hx0 : cur ≤ x.seq := hlo x (by simp)
    have hsort' : (rest.map (fun e => e.seq)).Pairwise (· < ·) :=
      (List.pairwise_cons.mp (by simpa using hsort)).2
    have hxlt : ∀ e ∈ rest, x.seq < e.seq := by
      intro e he
      exact (List.pairwise_cons.mp (by simpa using hsort)).1 e.seq
        (List.mem_map_of_mem _ he)
    by_cases hx : is_terminal_event x.event_type
    · refine ⟨?_, by simp [process_batch, hx]; omega, ?_⟩
      · intro e he
        have he' : e = x := by simpa [process_batch, hx] using he
        subst he'
        exact ⟨by simp, by simp [process_batch, hx]⟩
      · simp [process_batch, hx, stream_seqs]
    · have hrest := ih (x.seq + 1) hsort'
        (fun e he => by have := hxlt e he; omega)
      refine ⟨?_, ?_, ?_⟩
      · intro e he
        rcases (by simpa [process_batch, hx] using he :
            e = x ∨ SSEItem.data e ∈ (process_batch rest (x.seq + 1)).1) with
          rfl | hmem
        · refine ⟨by simp, ?_⟩
          have := hrest.2.1
          simp only [process_batch, hx, if_neg, Bool.false_eq_true]
          simp [process_batch, hx]
          omega
        · obtain ⟨hin, hlt⟩ := hrest.1 e hmem
          exact ⟨List.mem_cons_of_mem _ hin, by simpa [process_batch, hx] using hlt⟩
      · have := hrest.2.1
        simp [process_batch, hx]
        omega
      · have hpw := hrest.2.2
        have hstep : stream_seqs (process_batch (x :: rest) cur).1 =
            x.seq :: stream_seqs (process_batch rest (x.seq + 1)).1 := by
          simp [process_batch, hx, stream_seqs]
        rw [hstep]
        refine List.pairwise_cons.mpr ⟨?_, hpw⟩
        intro s hs
        obtain ⟨y, hy, rfl⟩ := stream_seqs_mem _ s hs
        exact hxlt y (hrest.1 y hy).1

/-- Helper: seqs of the sorted, filtered batch are strictly increasing
and bounded below by the cursor. -/
theorem db_query_facts (rows : List Event) (cur : ℤ)
    (hnd : (rows.map (fun e => e.seq)).Nodup) :
    ((db_query rows cur).map (fun e => e.seq)).Pairwise (· < ·) ∧
    (∀ e ∈ db_query rows cur, cur ≤ e.seq) := by
  have hperm : (db_query rows cur).Perm (rows.filter (fun e => cur ≤ e.seq)) :=
    List.perm_insertionSort seqLE _
  have hsorted : List.Sorted seqLE (db_query rows cur) :=
    List.sorted_insertionSort seqLE _
  have hle : ((db_query rows cur).map (fun e => e.seq)).Pairwise (· ≤ ·) :=
    List.pairwise_map.mpr hsorted
  have hsub : ((rows.filter (fun e => cur ≤ e.seq)).map (fun e => e.seq)).Sublist
      (rows.map (fun e => e.seq)) :=
    List.Sublist.map _ (List.filter_sublist rows)
  have hnd1 : ((rows.filter (fun e => cur ≤ e.seq)).map (fun e => e.seq)).Nodup :=
    List.Nodup.sublist hsub hnd
  have hnd2 : ((db_query rows cur).map (fun e => e.seq)).Nodup :=
    ((hperm.map _).nodup_iff).mpr hnd1
  constructor
  · exact (List.Pairwise.and hle hnd2).imp (fun h => lt_of_le_of_ne h.1 h.2)
  · intro e he
    have : e ∈ rows.filter (fun e => cur ≤ e.seq) := hperm.mem_iff.mp he
    have := List.mem_filter.mp this
    simpa using this.2

/-- Helper: lower bound, strict seq ordering and well-termination of the
whole observed stream. -/
theorem event_stream_facts (polls : List Poll) :
    ∀ cur : ℤ,
      (∀ p ∈ polls, (p.events.map (fun e => e.seq)).Nodup) →
      (∀ e, SSEItem.data e ∈ event_stream cur polls → cur ≤ e.seq) ∧
      (stream_seqs (event_stream cur polls)).Pairwise (· < ·) ∧
      well_terminated (event_stream cur polls) = true := by
  induction polls with
  | nil =>
    intro cur _
    refine ⟨?_, by simp [event_stream, stream_seqs], rfl⟩
    intro e he
    simp [event_stream] at he
  | cons poll polls ih =>
    intro cur hnd
    have hq := db_query_facts poll.events cur (hnd poll (by simp))
    have hb := process_batch_facts (db_query poll.events cur) cur hq.1 hq.2
    have hwt := process_batch_well_terminated (db_query poll.events cur) cur
    have hmem_batch : ∀ e, SSEItem.data e ∈
        (process_batch (db_query poll.events cur) cur).1 → cur ≤ e.seq :=
      fun e he => hq.2 e (hb.1 e he).1
    by_cases hstop : (process_batch (db_query poll.events cur) cur).2.2 = true
    · refine ⟨?_, ?_, ?_⟩
      · intro e he
        exact hmem_batch e (by simpa [event_stream, hstop] using he)
      · simpa [event_stream, hstop] using hb.2.2
      · simpa [event_stream, hstop] using hwt
    · have hstop' : (process_batch (db_query poll.events cur) cur).2.2 = false :=
        by simpa using hstop
      cases hrs : poll.run_status with
      | none =>
        refine ⟨?_, ?_, ?_⟩
        · intro e he
          exact hmem_batch e (by simpa [event_stream, hstop', hrs] using he)
        · simpa [event_stream, hstop', hrs] using hb.2.2
        · simpa [event_stream, hstop', hrs] using hwt
      | some st =>
        by_cases hterm : st.isTerminalStatus = true
        · refine ⟨?_, ?_, ?_⟩
          · intro e he
            exact hmem_batch e (by simpa [event_stream, hstop', hrs, hterm] using he)
          · simpa [event_stream, hstop', hrs, hterm] using hb.2.2
          · simpa [event_stream, hstop', hrs, hterm] using hwt
        · have hterm' : st.isTerminalStatus = false := by simpa using hterm
          have ihp := ih (process_batch (db_query poll.events cur) cur).2.1
            (fun p hp => hnd p (List.mem_cons_of_mem _ hp))
          have hout : event_stream cur (poll :: polls) =
              ((process_batch (db_query poll.events cur) cur).1 ++ [SSEItem.keepalive]) ++
                event_stream (process_batch (db_query poll.events cur) cur).2.1 polls := by
            simp [event_stream, hstop', hrs, hterm']
          refine ⟨?_, ?_, ?_⟩
          · intro e he
            rw [hout] at he
            rcases List.mem_append.mp he with h1 | h2
            · rcases List.mem_append.mp h1 with h3 | h4
              · exact hmem_batch e h3
              · simp at h4
            · exact le_trans (le_trans hb.2.1 (le_refl _)) (ihp.1 e h2)
          · rw [hout, stream_seqs_append, stream_seqs_append]
            have hkp : stream_seqs [SSEItem.keepalive] = [] := rfl
            rw [hkp, List.append_nil]
            refine List.pairwise_append.mpr ⟨hb.2.2, ihp.2.1, ?_⟩
            intro a ha b hbmem
            obtain ⟨y, hy, rfl⟩ := stream_seqs_mem _ a ha
            obtain ⟨z, hz, rfl⟩ := stream_seqs_mem _ b hbmem
            exact lt_of_lt_of_le (hb.1 y hy).2 (ihp.1 z hz)
          · rw [hout, well_terminated_append _ _
              (no_terminal_frame_keepalive _
                (process_batch_no_terminal _ cur hstop'))]
            exact ihp.2.2

/-- C6: along any sequence of database polls over event tables whose
per-run seqs are distinct (they are unique in the schema), the SSE
generator yields data frames with seqs that start at `from_seq` and
strictly increase, and nothing - frame or keepalive - is yielded after a
data frame carrying a terminal event: the stream ends right there. -/
theorem event_stream_ordered_and_closed (from_seq : ℤ) (polls : List Poll)
    (hnd : ∀ p ∈ polls, (p.events.map (fun e => e.seq)).Nodup) :
    (∀ e, SSEItem.data e ∈ event_stream from_seq polls → from_seq ≤ e.seq) ∧
    (stream_seqs (event_stream from_seq polls)).Pairwise (· < ·) ∧
    (∀ pre e post, event_stream from_seq polls = pre ++ SSEItem.data e :: post →
      is_terminal_event e.event_type = true → post = []) := by
  obtain ⟨h1, h2, h3⟩ := event_stream_facts polls from_seq hnd
  exact ⟨h1, h2, fun pre e post heq ht =>
    well_terminated_closed pre e post (heq ▸ h3) ht⟩

/-- Witness for C6 over one poll holding a normal and a terminal
event. -/
theorem event_stream_ordered_and_closed_witness :
    (stream_seqs (event_stream 0
        [{ events := [{ run_id := 1, seq := 0, event_type := "run.started",
                        payload := [], timestamp := 0 },
                      { run_id := 1, seq := 1, event_type := "run.succeeded",
                        payload := [], timestamp := 0 }],
           run_status := some RunStatus.succeeded }])).Pairwise (· < ·) :=
  (event_stream_ordered_and_closed 0
    [{ events := [{ run_id := 1, seq := 0, event_type := "run.started",
                    payload := [], timestamp := 0 },
                  { run_id := 1, seq := 1, event_type := "run.succeeded",
                    payload := [], timestamp := 0 }],
       run_status := some RunStatus.succeeded }] (by decide)).2.1

end AgentRuntime
